import Mathlib

/-!
Verification of the contact-form validation logic of `src/script.js`.

Strings are modelled as `List Char`; JS `String.prototype.trim` is `jsTrim`;
the whitespace class (`\s`, and the characters removed by `trim`) is modelled
by `Char.isWhitespace`.  A DOM element that may be absent (`querySelector`
returning `null`) is an `Option`.  Error-message strings are Lean `String`s
built by the same concatenations the source performs.
-/

/-- The character class `[^\s@]` of the source regex: not whitespace, not `@`. -/
def tokChar (c : Char) : Bool := !c.isWhitespace && c != '@'

/-- "Non-whitespace" as a character predicate. -/
def nonWs (c : Char) : Bool := !c.isWhitespace

/-- JS `String.prototype.trim`: strip leading and trailing whitespace. -/
def jsTrim (s : List Char) : List Char :=
  ((s.dropWhile Char.isWhitespace).reverse.dropWhile Char.isWhitespace).reverse

/-- The test of the source regex `/^[^\s@]+@[^\s@]+\.[^\s@]+$/` (script.js
line 124).  By the standard semantics of anchored regex matching, the string
matches iff it decomposes as `A ++ "@" ++ B ++ "." ++ C` with `A`, `B`, `C`
non-empty strings of `[^\s@]` characters; `i` is the index of the `@` of the
decomposition and `j` the index of the separating `.` (so `A = take i`,
`B = (drop (i+1)).take (j-(i+1))`, `C = drop (j+1)`). -/
def emailRegexTest (s : List Char) : Bool :=
  (List.range s.length).any fun i =>
    (List.range s.length).any fun j =>
      decide (1 ≤ i) && decide (i + 2 ≤ j) && decide (j + 2 ≤ s.length) &&
      (s.getD i ' ' == '@') && (s.getD j ' ' == '.') &&
      (s.take i).all tokChar &&
      ((s.drop (i+1)).take (j - (i+1))).all tokChar &&
      (s.drop (j+1)).all tokChar

/-- The spec's prose email pattern, written from the spec's words: "exactly
one `@`, non-whitespace on both sides, at least one `.` after the `@` with
non-whitespace on both sides of it".  "Non-whitespace on both sides" is read
as: the flanking material on each side is non-empty and free of whitespace
(for the `.`, the material between the `@` and the `.` and the material after
the `.`). -/
def proseEmailPattern (s : List Char) : Bool :=
  (s.count '@' == 1) &&
  ((List.range s.length).any fun i =>
    (s.getD i ' ' == '@') &&
    !(s.take i).isEmpty && (s.take i).all nonWs &&
    !(s.drop (i+1)).isEmpty && (s.drop (i+1)).all nonWs &&
    ((List.range s.length).any fun j =>
      decide (i < j) && (s.getD j ' ' == '.') &&
      !((s.drop (i+1)).take (j - (i+1))).isEmpty &&
      ((s.drop (i+1)).take (j - (i+1))).all nonWs &&
      !(s.drop (j+1)).isEmpty && (s.drop (j+1)).all nonWs))

/-- A field descriptor from the `fields` array (script.js lines 60–89). -/
structure FieldSpec where
  testId : String
  required : Bool
  email : Bool
  minLength : Option Nat
  errorTestId : String
  friendlyName : String
deriving DecidableEq

/-- The bound UI state of one field: the input element (with its current
value), the error element (with its current text), and the closest
`.form-group` ancestor (with whether it currently carries the `error` class).
`none` models a missing element (`querySelector` returned `null`). -/
structure FieldUI where
  input : Option (List Char)
  errorText : Option String
  group : Option Bool
deriving DecidableEq

def requiredMsg (name : String) : String := name ++ " is required."

def minLengthMsg (name : String) (n : Nat) : String :=
  name ++ " must be at least " ++ toString n ++ " characters long."

def emailMsg : String := "Please enter a valid email address (e.g., name@example.com)."

/-- `validators.required` (script.js lines 113–114). -/
def validators.required (value : List Char) (name : String) : String :=
  if 0 < (jsTrim value).length then "" else requiredMsg name

/-- `validators.minLength` (script.js lines 117–120). -/
def validators.minLength (value : List Char) (n : Nat) (name : String) : String :=
  if n ≤ (jsTrim value).length then "" else minLengthMsg name n

/-- `validators.email` (script.js lines 123–128). -/
def validators.email (value : List Char) : String :=
  if emailRegexTest (jsTrim value) then "" else emailMsg

/-- The `errorMessage` computed by `validateField` (script.js lines 140–161):
required check first; if it produced no message, the email check when
`type === "email"`, else the min-length check when `minLength && minLength > 1`. -/
def computeError (f : FieldSpec) (value : List Char) : String :=
  let e := if f.required then validators.required value f.friendlyName else ""
  if e = "" then
    if f.email then validators.email value
    else
      match f.minLength with
      | some m => if 1 < m then validators.minLength value m f.friendlyName else ""
      | none => ""
  else e

/-- `validateField` (script.js lines 136–173).  With a missing input or error
element it skips and reports valid (line 137); otherwise it computes the
error message from the input's value and writes the DOM: on error it sets the
error element's text and adds the `error` class to the group (when present),
on success it clears the text and removes the class. -/
def validateField (f : FieldSpec) (ui : FieldUI) : Bool × FieldUI :=
  match ui.input, ui.errorText with
  | some v, some _ =>
    let msg := computeError f v
    if msg = "" then
      (true, { ui with errorText := some "", group := ui.group.map fun _ => false })
    else
      (false, { ui with errorText := some msg, group := ui.group.map fun _ => true })
  | _, _ => (true, ui)

/-- `validateForm` (script.js lines 179–187): validate every field in
declared order, accumulating the conjunction; returns the verdict and the
updated per-field UI states. -/
def validateForm : List (FieldSpec × FieldUI) → Bool × List (FieldSpec × FieldUI)
  | [] => (true, [])
  | (f, ui) :: rest =>
    let r := validateField f ui
    let rr := validateForm rest
    (r.1 && rr.1, (f, r.2) :: rr.2)

/-- The blur listener (script.js lines 193–195) for the field at position
`i`: validate that field only. -/
def blurHandler : Nat → List (FieldSpec × FieldUI) → List (FieldSpec × FieldUI)
  | _, [] => []
  | 0, (f, ui) :: rest => (f, (validateField f ui).2) :: rest
  | n+1, b :: rest => b :: blurHandler n rest

/-- The input listener (script.js lines 198–202): re-validate the field only
when its group currently carries the `error` class. -/
def inputHandler (f : FieldSpec) (ui : FieldUI) : FieldUI :=
  if ui.group = some true then (validateField f ui).2 else ui

/-- Registration of the blur/input listeners (script.js lines 192–203):
`fieldObj.input.addEventListener` is called with no null guard, so a missing
input element raises a `TypeError` and registration aborts there. -/
def registerFieldListeners : List (FieldSpec × FieldUI) → Except String Unit
  | [] => Except.ok ()
  | (_, ui) :: rest =>
    match ui.input with
    | none => Except.error "TypeError: cannot read addEventListener of null"
    | some _ => registerFieldListeners rest

/-- `form.reset()`: every present input's value is reset to empty. -/
def clearValues (l : List (FieldSpec × FieldUI)) : List (FieldSpec × FieldUI) :=
  l.map fun b => (b.1, { b.2 with input := b.2.input.map fun _ => [] })

/-- The focus move of the failure branch (script.js lines 229–234): find the
first field whose group carries the `error` class; focus its input when that
input exists. -/
def focusTarget (l : List (FieldSpec × FieldUI)) : Option String :=
  match l.find? fun b => b.2.group == some true with
  | some b => if b.2.input.isSome then some b.1.testId else none
  | none => none

/-- The observable outcome of one submit event: whether the default was
prevented, the field states after the handler, the successive visibility
values written to the success indicator (`false` = hidden), the field that
received focus, and how many success / failure events were dispatched. -/
structure SubmitOutcome where
  defaultPrevented : Bool
  bindings : List (FieldSpec × FieldUI)
  successWrites : List Bool
  focused : Option String
  successEvents : Nat
  failureEvents : Nat
deriving DecidableEq

/-- The submit handler (script.js lines 206–237).  `successPresent` models
whether the success-message element exists.  The handler prevents the
default, hides the indicator, runs `validateForm`; on success it shows the
indicator, resets the form and dispatches `contact-success`; on failure it
focuses the first field whose group carries the `error` class (when that
field has an input element) and dispatches `contact-failure`. -/
def submitHandler (successPresent : Bool) (l : List (FieldSpec × FieldUI)) : SubmitOutcome :=
  let hideWrites := if successPresent then [false] else []
  let r := validateForm l
  if r.1 then
    { defaultPrevented := true
      bindings := clearValues r.2
      successWrites := hideWrites ++ (if successPresent then [true] else [])
      focused := none
      successEvents := 1
      failureEvents := 0 }
  else
    { defaultPrevented := true
      bindings := r.2
      successWrites := hideWrites
      focused := focusTarget r.2
      successEvents := 0
      failureEvents := 1 }

/-- The four field descriptors of the source (script.js lines 60–89). -/
def nameField : FieldSpec :=
  { testId := "test-contact-name", required := true, email := false,
    minLength := some 1, errorTestId := "test-contact-error-name",
    friendlyName := "Full Name" }

def emailField : FieldSpec :=
  { testId := "test-contact-email", required := true, email := true,
    minLength := none, errorTestId := "test-contact-error-email",
    friendlyName := "Email" }

def subjectField : FieldSpec :=
  { testId := "test-contact-subject", required := true, email := false,
    minLength := some 1, errorTestId := "test-contact-error-subject",
    friendlyName := "Subject" }

def messageField : FieldSpec :=
  { testId := "test-contact-message", required := true, email := false,
    minLength := some 10, errorTestId := "test-contact-error-message",
    friendlyName := "Message" }

def fields : List FieldSpec := [nameField, emailField, subjectField, messageField]

example : emailRegexTest "a@b.c".data = true := by decide
example : emailRegexTest "a@.c".data = false := by decide
example : emailRegexTest "a@.b.c".data = true := by decide
example : emailRegexTest "a@b..c".data = true := by decide
example : emailRegexTest "a b@c.d".data = false := by decide
example : proseEmailPattern "a@b.c".data = true := by decide
example : proseEmailPattern "a@.c".data = false := by decide
example : proseEmailPattern "a@.b.c".data = true := by decide
example : proseEmailPattern "a b@c.d".data = false := by decide
example : computeError messageField "".data = "Message is required." := by decide
example : computeError messageField "short".data
    = "Message must be at least 10 characters long." := by decide
example : computeError emailField "not-an-email".data = emailMsg := by decide

/-! ### The source regex and the spec's prose email pattern agree -/

lemma tokChar_iff {c : Char} : tokChar c = true ↔ nonWs c = true ∧ c ≠ '@' := by
  simp [tokChar, nonWs]

lemma dotNonWs : nonWs '.' = true := by decide

lemma split_at_idx {s : List Char} {i : Nat} (hi : i < s.length) :
    s = s.take i ++ s[i] :: s.drop (i+1) := by
  conv_lhs => rw [← List.take_append_drop i s]
  rw [List.drop_eq_getElem_cons hi]

lemma drop_split {s : List Char} {i j : Nat} (hij : i + 1 ≤ j) (hj : j < s.length)
    (hdot : s[j] = '.') :
    s.drop (i+1) = (s.drop (i+1)).take (j - (i+1)) ++ '.' :: s.drop (j+1) := by
  conv_lhs => rw [← List.take_append_drop (j - (i+1)) (s.drop (i+1))]
  rw [List.drop_drop, Nat.add_sub_cancel' hij, List.drop_eq_getElem_cons hj, hdot]

lemma count_split_at {s : List Char} {i : Nat} (hi : i < s.length) (hat : s[i] = '@') :
    s.count '@' = (s.take i).count '@' + ((s.drop (i+1)).count '@' + 1) := by
  conv_lhs => rw [split_at_idx hi]
  simp [List.count_append, List.count_cons, hat]

lemma regex_to_prose (s : List Char) (h : emailRegexTest s = true) :
    proseEmailPattern s = true := by
  simp only [emailRegexTest, List.any_eq_true, List.mem_range, Bool.and_eq_true,
    decide_eq_true_eq, beq_iff_eq, List.all_eq_true, and_assoc] at h
  obtain ⟨i, hilen, j, hjlen, h1i, h2ij, h2jl, hat, hdot, hA, hB, hC⟩ := h
  have hatE : s[i] = '@' := by rw [← List.getD_eq_getElem s ' ' hilen]; exact hat
  have hdotE : s[j] = '.' := by rw [← List.getD_eq_getElem s ' ' hjlen]; exact hdot
  have hij1 : i + 1 ≤ j := by omega
  have hR := drop_split hij1 hjlen hdotE
  -- every character of the tail after the '@' is non-whitespace
  have hRnw : ∀ c ∈ s.drop (i+1), nonWs c = true := by
    intro c hc
    rw [hR] at hc
    rcases List.mem_append.mp hc with hc | hc
    · exact (tokChar_iff.mp (hB c hc)).1
    · rcases List.mem_cons.mp hc with rfl | hc
      · exact dotNonWs
      · exact (tokChar_iff.mp (hC c hc)).1
  -- the count of '@' is exactly one
  have hcount : s.count '@' = 1 := by
    have h1 := count_split_at hilen hatE
    have h2 : (s.take i).count '@' = 0 :=
      List.count_eq_zero.mpr fun hm => (tokChar_iff.mp (hA '@' hm)).2 rfl
    have h3 : (s.drop (i+1)).count '@' = 0 := by
      rw [hR, List.count_append, List.count_cons]
      have hb : ((s.drop (i+1)).take (j - (i+1))).count '@' = 0 :=
        List.count_eq_zero.mpr fun hm => (tokChar_iff.mp (hB '@' hm)).2 rfl
      have hcc : (s.drop (j+1)).count '@' = 0 :=
        List.count_eq_zero.mpr fun hm => (tokChar_iff.mp (hC '@' hm)).2 rfl
      simp [hb, hcc]
    omega
  simp only [proseEmailPattern, List.any_eq_true, List.mem_range, Bool.and_eq_true,
    decide_eq_true_eq, beq_iff_eq, List.all_eq_true, and_assoc, Bool.not_eq_true',
    List.isEmpty_eq_false]
  refine ⟨hcount, i, hilen, hat, ?_, fun c hc => (tokChar_iff.mp (hA c hc)).1, ?_, hRnw,
    j, hjlen, by omega, hdot, ?_, fun c hc => (tokChar_iff.mp (hB c hc)).1, ?_,
    fun c hc => (tokChar_iff.mp (hC c hc)).1⟩
  · have : 0 < (s.take i).length := by simp [List.length_take]; omega
    exact List.length_pos.mp this
  · have : 0 < (s.drop (i+1)).length := by simp [List.length_drop]; omega
    exact List.length_pos.mp this
  · have : 0 < ((s.drop (i+1)).take (j - (i+1))).length := by
      simp [List.length_take, List.length_drop]; omega
    exact List.length_pos.mp this
  · have : 0 < (s.drop (j+1)).length := by simp [List.length_drop]; omega
    exact List.length_pos.mp this

lemma prose_to_regex (s : List Char) (h : proseEmailPattern s = true) :
    emailRegexTest s = true := by
  simp only [proseEmailPattern, List.any_eq_true, List.mem_range, Bool.and_eq_true,
    decide_eq_true_eq, beq_iff_eq, List.all_eq_true, and_assoc, Bool.not_eq_true',
    List.isEmpty_eq_false] at h
  obtain ⟨hcount, i, hilen, hat, hAne, hAnw, hRne, hRnw, j, hjlen, hij, hdot,
    hBne, hBnw, hCne, hCnw⟩ := h
  have hatE : s[i] = '@' := by rw [← List.getD_eq_getElem s ' ' hilen]; exact hat
  have h1i : 1 ≤ i := by
    rcases Nat.eq_zero_or_pos i with rfl | h
    · simp at hAne
    · exact h
  have h2ij : i + 2 ≤ j := by
    have : j - (i+1) ≠ 0 := by
      intro h0
      rw [h0] at hBne
      simp at hBne
    omega
  have h2jl : j + 2 ≤ s.length := by
    have : ¬ s.length ≤ j + 1 := fun hle => hCne (List.drop_eq_nil_of_le hle)
    omega
  -- no '@' occurs outside position i
  have hsplit := count_split_at hilen hatE
  have hAat : '@' ∉ s.take i := by
    rw [hcount] at hsplit
    exact List.count_eq_zero.mp (by omega)
  have hRat : '@' ∉ s.drop (i+1) := by
    rw [hcount] at hsplit
    exact List.count_eq_zero.mp (by omega)
  have hCdrop : s.drop (j+1) = (s.drop (i+1)).drop (j - (i+1) + 1) := by
    rw [List.drop_drop]
    congr 1
    omega
  simp only [emailRegexTest, List.any_eq_true, List.mem_range, Bool.and_eq_true,
    decide_eq_true_eq, beq_iff_eq, List.all_eq_true, and_assoc]
  refine ⟨i, hilen, j, hjlen, h1i, h2ij, h2jl, hat, hdot, ?_, ?_, ?_⟩
  · intro c hc
    exact tokChar_iff.mpr ⟨hAnw c hc, fun hcc => hAat (hcc ▸ hc)⟩
  · intro c hc
    have hcR : c ∈ s.drop (i+1) := List.mem_of_mem_take hc
    exact tokChar_iff.mpr ⟨hBnw c hc, fun hcc => hRat (hcc ▸ hcR)⟩
  · intro c hc
    have hcR : c ∈ s.drop (i+1) := by
      rw [hCdrop] at hc
      exact List.mem_of_mem_drop hc
    exact tokChar_iff.mpr ⟨hCnw c hc, fun hcc => hRat (hcc ▸ hcR)⟩

theorem emailRegexTest_eq_proseEmailPattern (s : List Char) :
    emailRegexTest s = proseEmailPattern s := by
  rw [Bool.eq_iff_iff]
  exact ⟨regex_to_prose s, prose_to_regex s⟩


/-! ### Helper lemmas about the error messages and the validators -/

lemma requiredMsg_ne_empty (name : String) : requiredMsg name ≠ "" := by
  intro h
  have h2 := congrArg String.length h
  rw [requiredMsg, String.length_append] at h2
  have h3 : (" is required." : String).length = 13 := by decide
  have h4 : ("" : String).length = 0 := by decide
  omega

lemma minLengthMsg_ne_empty (name : String) (n : Nat) : minLengthMsg name n ≠ "" := by
  intro h
  have h2 := congrArg String.length h
  rw [minLengthMsg, String.length_append, String.length_append, String.length_append] at h2
  have h3 : (" characters long." : String).length = 17 := by decide
  have h4 : ("" : String).length = 0 := by decide
  omega

lemma emailMsg_ne_empty : emailMsg ≠ "" := by decide

lemma validateField_skip {f : FieldSpec} {ui : FieldUI}
    (h : ui.input = none ∨ ui.errorText = none) : validateField f ui = (true, ui) := by
  obtain ⟨iv, ie, ig⟩ := ui
  cases iv <;> cases ie <;> simp_all [validateField]

lemma validateField_run (f : FieldSpec) (v : List Char) (e : String) (g : Option Bool) :
    validateField f ⟨some v, some e, g⟩ =
      if computeError f v = "" then
        (true, ⟨some v, some "", g.map fun _ => false⟩)
      else
        (false, ⟨some v, some (computeError f v), g.map fun _ => true⟩) := rfl

lemma computeError_required {f : FieldSpec} {v : List Char}
    (hreq : f.required = true) (hv : jsTrim v = []) :
    computeError f v = requiredMsg f.friendlyName := by
  simp [computeError, validators.required, hreq, hv, requiredMsg_ne_empty]

lemma computeError_email {f : FieldSpec} {v : List Char}
    (hf : f.email = true) (hne : jsTrim v ≠ []) :
    computeError f v = if emailRegexTest (jsTrim v) then "" else emailMsg := by
  have hlen : 0 < (jsTrim v).length := List.length_pos.mpr hne
  cases hfr : f.required <;>
    simp [computeError, validators.required, validators.email, hf, hfr, hlen]

lemma validateForm_spec (l : List (FieldSpec × FieldUI)) :
    (validateForm l).1 = (l.all fun b => (validateField b.1 b.2).1) ∧
    (validateForm l).2 = (l.map fun b => (b.1, (validateField b.1 b.2).2)) := by
  induction l with
  | nil => simp [validateForm]
  | cons b t ih =>
    obtain ⟨f, ui⟩ := b
    simp [validateForm, ih.1, ih.2]

/-- A field binding whose three UI elements are all present (full markup). -/
def fullyBound (b : FieldSpec × FieldUI) : Bool :=
  b.2.input.isSome && b.2.errorText.isSome && b.2.group.isSome

lemma validateField_full {f : FieldSpec} {ui : FieldUI} (h : fullyBound (f, ui) = true) :
    (validateField f ui).2.group = some (!(validateField f ui).1) ∧
    (validateField f ui).2.input = ui.input := by
  obtain ⟨iv, ie, ig⟩ := ui
  rcases iv with _ | v
  · simp [fullyBound] at h
  rcases ie with _ | e
  · simp [fullyBound] at h
  rcases ig with _ | g
  · simp [fullyBound] at h
  rw [validateField_run]
  split_ifs <;> simp

lemma focusTarget_validateForm (l : List (FieldSpec × FieldUI))
    (hb : ∀ b ∈ l, fullyBound b = true) :
    focusTarget (validateForm l).2 =
      ((l.find? fun b => !(validateField b.1 b.2).1).map fun b => b.1.testId) := by
  induction l with
  | nil => simp [validateForm, focusTarget]
  | cons bt t ih =>
    obtain ⟨f, ui⟩ := bt
    have hfb : fullyBound (f, ui) = true := hb (f, ui) (by simp)
    have hg := validateField_full hfb
    have hrec := ih fun x hx => hb x (List.mem_cons_of_mem _ hx)
    have hvf2 : (validateForm ((f, ui) :: t)).2
        = (f, (validateField f ui).2) :: (validateForm t).2 := rfl
    rw [hvf2]
    have hinp : (validateField f ui).2.input.isSome = true := by
      rw [hg.2]
      obtain ⟨iv, ie, ig⟩ := ui
      rcases iv with _ | v
      · simp [fullyBound] at hfb
      · rfl
    cases hvf : (validateField f ui).1 with
    | false =>
      simp [focusTarget, List.find?_cons, hg.1, hvf, hinp]
    | true =>
      simp only [focusTarget, List.find?_cons, hg.1, hvf] at hrec ⊢
      simpa using hrec

lemma computeError_cases (f : FieldSpec) (v : List Char) :
    computeError f v = "" ∨ computeError f v = requiredMsg f.friendlyName ∨
    computeError f v = emailMsg ∨
    (∃ m, f.minLength = some m ∧ computeError f v = minLengthMsg f.friendlyName m) := by
  rw [computeError]
  cases hfr : f.required <;> cases hfe : f.email <;> rcases hm : f.minLength with _ | m <;>
    simp [validators.required, validators.email, validators.minLength] <;>
    split_ifs <;> simp_all

/-! ### Claim theorems -/

/-- C1: for every email-kind field and every raw value whose trimmed form is
non-empty, `validateField` reports no error iff the trimmed value satisfies
the spec's prose email pattern (exactly one `@`, non-whitespace on both
sides, at least one `.` after the `@` with non-whitespace on both sides of
it); on mismatch the displayed message is exactly the fixed email-format
message.  The first conjunct is the required extensional equality of the
source regex and the prose pattern, on every string. -/
theorem email_format_claim (f : FieldSpec) (v : List Char) (e : String) (g : Option Bool)
    (hf : f.email = true) (hne : jsTrim v ≠ []) :
    (∀ s : List Char, emailRegexTest s = proseEmailPattern s) ∧
    ((validateField f ⟨some v, some e, g⟩).1 = true ↔
      proseEmailPattern (jsTrim v) = true) ∧
    (proseEmailPattern (jsTrim v) = false →
      (validateField f ⟨some v, some e, g⟩).2.errorText = some emailMsg) := by
  have hce : computeError f v = if proseEmailPattern (jsTrim v) then "" else emailMsg := by
    rw [computeError_email hf hne, emailRegexTest_eq_proseEmailPattern]
  refine ⟨emailRegexTest_eq_proseEmailPattern, ?_, ?_⟩
  · rw [validateField_run]
    cases hp : proseEmailPattern (jsTrim v) <;> simp [hce, hp, emailMsg_ne_empty]
  · intro hp
    rw [validateField_run]
    simp [hce, hp, emailMsg_ne_empty]

theorem email_format_claim_witness :
    (validateField emailField ⟨some ("a@b.c".data), some "", some false⟩).1 = true ↔
      proseEmailPattern (jsTrim ("a@b.c".data)) = true :=
  (email_format_claim emailField "a@b.c".data "" (some false) rfl (by decide)).2.1

/-- C2: for every required field and every raw value whose trimmed form is
empty, `validateField` reports invalid and displays exactly
`"<label> is required."`; no further check runs, so in particular the email
field's empty value yields the required message and not the format one. -/
theorem required_stop_claim (f : FieldSpec) (v : List Char) (e : String) (g : Option Bool)
    (hreq : f.required = true) (hv : jsTrim v = []) :
    (validateField f ⟨some v, some e, g⟩).1 = false ∧
    (validateField f ⟨some v, some e, g⟩).2.errorText = some (requiredMsg f.friendlyName) := by
  have hce := computeError_required hreq hv
  rw [validateField_run]
  simp [hce, requiredMsg_ne_empty]

theorem required_stop_claim_witness :
    (validateField emailField ⟨some ("   ".data), some "", some false⟩).1 = false ∧
    (validateField emailField ⟨some ("   ".data), some "", some false⟩).2.errorText
      = some (requiredMsg "Email") :=
  required_stop_claim emailField "   ".data "" (some false) rfl (by decide)

/-- C3, counterexample: on the empty raw value the trimmed length is below
10, yet the message field does not produce the Length error — the required
check fires first and produces `"Message is required."`. -/
theorem message_length_counterexample :
    (jsTrim ("".data)).length < 10 ∧
    computeError messageField "".data ≠ "Message must be at least 10 characters long." ∧
    computeError messageField "".data = "Message is required." := by decide

/-- C3, amended: for the message field, a raw value whose trimmed form is
non-empty and shorter than 10 characters yields the Length error with the
literal bound "10" interpolated; a trimmed length of at least 10 yields no
error; the empty trimmed value instead yields the Required error. -/
theorem message_length_amended (v : List Char) :
    (jsTrim v ≠ [] → (jsTrim v).length < 10 →
      computeError messageField v = "Message must be at least 10 characters long.") ∧
    (10 ≤ (jsTrim v).length → computeError messageField v = "") ∧
    (jsTrim v = [] → computeError messageField v = "Message is required.") := by
  have hmsg : minLengthMsg "Message" 10 = "Message must be at least 10 characters long." := by
    decide
  refine ⟨?_, ?_, ?_⟩
  · intro hne hlt
    have hlen : 0 < (jsTrim v).length := List.length_pos.mpr hne
    have hnle : ¬ (10 ≤ (jsTrim v).length) := by omega
    simp [computeError, messageField, validators.required, validators.minLength,
      hlen, hnle, hmsg]
  · intro hge
    have hlen : 0 < (jsTrim v).length := by omega
    simp [computeError, messageField, validators.required, validators.minLength, hlen, hge]
  · intro hv
    have h := computeError_required (f := messageField) rfl hv
    rw [h]
    decide

theorem message_length_amended_witness :
    computeError messageField ("short".data) = "Message must be at least 10 characters long." :=
  (message_length_amended "short".data).1 (by decide) (by decide)

/-- C4: `validateForm` validates every declared field in order with no
short-circuiting — the resulting state updates every field's UI — and
returns `allValid = true` iff `validateField` reports no error for every
declared field. -/
theorem validateForm_claim (l : List (FieldSpec × FieldUI)) :
    ((validateForm l).1 = true ↔ ∀ b ∈ l, (validateField b.1 b.2).1 = true) ∧
    (validateForm l).2 = (l.map fun b => (b.1, (validateField b.1 b.2).2)) := by
  have h := validateForm_spec l
  refine ⟨?_, h.2⟩
  rw [h.1, List.all_eq_true]

lemma clearValues_clears (l : List (FieldSpec × FieldUI)) :
    ∀ b ∈ clearValues l, ∀ w, b.2.input = some w → w = [] := by
  intro b hb w hw
  obtain ⟨a, _, rfl⟩ := List.mem_map.mp hb
  rcases hax : a.2.input with _ | x <;> simp [hax] at hw
  exact hw

/-- C5: submitting with at least one invalid field, under full markup (every
field's input, error element and group are bound): the default is prevented,
the failure event fires exactly once, no success event fires, the success
indicator is hidden and not re-shown, and focus moves to the first field in
declared order whose validation failed. -/
theorem submit_failure_claim (l : List (FieldSpec × FieldUI))
    (hb : ∀ b ∈ l, fullyBound b = true)
    (hinv : ∃ b ∈ l, (validateField b.1 b.2).1 = false) :
    (submitHandler true l).defaultPrevented = true ∧
    (submitHandler true l).failureEvents = 1 ∧
    (submitHandler true l).successEvents = 0 ∧
    (submitHandler true l).successWrites = [false] ∧
    (submitHandler true l).focused =
      ((l.find? fun b => !(validateField b.1 b.2).1).map fun b => b.1.testId) := by
  have hall : (validateForm l).1 = false := by
    cases hv : (validateForm l).1
    · rfl
    · rw [(validateForm_spec l).1, List.all_eq_true] at hv
      obtain ⟨b, hbl, hbf⟩ := hinv
      rw [hv b hbl] at hbf
      exact Bool.noConfusion hbf
  have hfoc := focusTarget_validateForm l hb
  simp [submitHandler, hall, hfoc]

/-- A concrete form state: all fields bound, every value valid except the
email field, whose value is `"not-an-email"`. -/
def sampleForm : List (FieldSpec × FieldUI) :=
  [(nameField, ⟨some ("John Doe".data), some "", some false⟩),
   (emailField, ⟨some ("not-an-email".data), some "", some false⟩),
   (subjectField, ⟨some ("Hello".data), some "", some false⟩),
   (messageField, ⟨some ("This is a long message".data), some "", some false⟩)]

theorem submit_failure_claim_witness :
    (submitHandler true sampleForm).focused = some "test-contact-email" ∧
    (submitHandler true sampleForm).failureEvents = 1 ∧
    (submitHandler true sampleForm).successEvents = 0 ∧
    ((submitHandler true sampleForm).bindings.map fun b => b.2.errorText)
      = [some "", some emailMsg, some "", some ""] := by
  have h := submit_failure_claim sampleForm (by decide) (by decide)
  refine ⟨?_, h.2.1, h.2.2.1, by decide⟩
  rw [h.2.2.2.2]
  decide

/-- C6: submitting a fully valid form: the default is prevented, the success
indicator is first hidden and then shown again, the success event fires
exactly once, no failure event fires, and every present input's value is
cleared. -/
theorem submit_success_claim (l : List (FieldSpec × FieldUI))
    (hv : ∀ b ∈ l, (validateField b.1 b.2).1 = true) :
    (submitHandler true l).defaultPrevented = true ∧
    (submitHandler true l).successWrites = [false, true] ∧
    (submitHandler true l).successEvents = 1 ∧
    (submitHandler true l).failureEvents = 0 ∧
    (∀ b ∈ (submitHandler true l).bindings, ∀ w, b.2.input = some w → w = []) := by
  have hall : (validateForm l).1 = true := by
    rw [(validateForm_spec l).1, List.all_eq_true]
    exact hv
  refine ⟨by simp [submitHandler, hall], by simp [submitHandler, hall],
    by simp [submitHandler, hall], by simp [submitHandler, hall], ?_⟩
  intro b hb w hw
  have hb' : b ∈ clearValues (validateForm l).2 := by
    simpa [submitHandler, hall] using hb
  exact clearValues_clears _ b hb' w hw

/-- The same form as `sampleForm` but with a well-formed email value. -/
def sampleFormValid : List (FieldSpec × FieldUI) :=
  [(nameField, ⟨some ("John Doe".data), some "", some false⟩),
   (emailField, ⟨some ("john@example.com".data), some "", some false⟩),
   (subjectField, ⟨some ("Hello".data), some "", some false⟩),
   (messageField, ⟨some ("This is a long message".data), some "", some false⟩)]

theorem submit_success_claim_witness :
    (submitHandler true sampleFormValid).successWrites = [false, true] ∧
    (submitHandler true sampleFormValid).successEvents = 1 ∧
    (submitHandler true sampleFormValid).failureEvents = 0 := by
  have h := submit_success_claim sampleFormValid (by decide)
  exact ⟨h.2.1, h.2.2.1, h.2.2.2.1⟩

/-- C7, counterexample: a descriptor whose input element is missing is
skipped by `validateField` (assume valid), but the blur/input listener
registration dereferences the missing input with no guard and raises a
`TypeError` — a hard failure, contradicting the claim that no operation
fails hard on a missing binding. -/
theorem skip_binding_counterexample :
    registerFieldListeners [(nameField, ⟨none, some "", none⟩)]
      = Except.error "TypeError: cannot read addEventListener of null" ∧
    validateField nameField ⟨none, some "", none⟩ = (true, ⟨none, some "", none⟩) :=
  ⟨rfl, rfl⟩

/-- C7, amended: `validateField` (and hence `validateForm`) treats a field
with a missing input or error element as "skip — assume valid" and never
fails hard; listener registration, however, succeeds exactly when every
descriptor's input element is present — a missing input element makes it
raise a `TypeError`. -/
theorem skip_binding_amended :
    (∀ (f : FieldSpec) (ui : FieldUI), ui.input = none ∨ ui.errorText = none →
      validateField f ui = (true, ui)) ∧
    (∀ l : List (FieldSpec × FieldUI),
      registerFieldListeners l = Except.ok () ↔ ∀ b ∈ l, b.2.input.isSome = true) := by
  refine ⟨fun f ui h => validateField_skip h, fun l => ?_⟩
  induction l with
  | nil => simp [registerFieldListeners]
  | cons b t ih =>
    obtain ⟨f, ui⟩ := b
    rcases hui : ui.input with _ | v <;>
      simp [registerFieldListeners, hui, List.forall_mem_cons, ih]

theorem skip_binding_amended_witness :
    validateField nameField ⟨none, some "", some false⟩
      = (true, ⟨none, some "", some false⟩) ∧
    (registerFieldListeners [] = Except.ok () ↔
      ∀ b ∈ ([] : List (FieldSpec × FieldUI)), b.2.input.isSome = true) :=
  ⟨skip_binding_amended.1 nameField ⟨none, some "", some false⟩ (Or.inl rfl),
   skip_binding_amended.2 []⟩

/-- C8: an input event re-validates the field exactly when its group
currently carries the `error` class (otherwise the event does nothing), and
when the re-validation finds the field valid the errored flag and the error
message clear at once. -/
theorem input_revalidate_claim (f : FieldSpec) (ui : FieldUI) :
    (ui.group = some true → inputHandler f ui = (validateField f ui).2) ∧
    (ui.group ≠ some true → inputHandler f ui = ui) ∧
    (∀ v e, ui.input = some v → ui.errorText = some e → ui.group = some true →
      (validateField f ui).1 = true →
      (inputHandler f ui).group = some false ∧ (inputHandler f ui).errorText = some "") := by
  refine ⟨fun h => by simp [inputHandler, h], fun h => by simp [inputHandler, h], ?_⟩
  intro v e hv he hg hvalid
  obtain ⟨iv, ie, ig⟩ := ui
  simp only [] at hv he hg
  subst hv
  subst he
  subst hg
  rw [inputHandler]
  rw [validateField_run] at hvalid ⊢
  by_cases hce : computeError f v = ""
  · simp [hce]
  · simp [hce] at hvalid

theorem input_revalidate_claim_witness :
    inputHandler emailField ⟨some ("a@b.c".data), some emailMsg, some true⟩ =
      (validateField emailField ⟨some ("a@b.c".data), some emailMsg, some true⟩).2 ∧
    (inputHandler emailField ⟨some ("a@b.c".data), some emailMsg, some true⟩).group
      = some false :=
  ⟨(input_revalidate_claim emailField ⟨some ("a@b.c".data), some emailMsg, some true⟩).1 rfl,
   ((input_revalidate_claim emailField ⟨some ("a@b.c".data), some emailMsg, some true⟩).2.2
     ("a@b.c".data) emailMsg rfl rfl rfl (by decide)).1⟩

/-- C9: every error message the validator computes is the empty string or
exactly one of the three fixed templates — Required, Format (the fixed email
message) or Length (with the field's own bound interpolated).  Validation
never escapes as a thrown fault: `validateField`, `validateForm` and the
event handlers are total functions of the modelled state. -/
theorem error_taxonomy_claim (f : FieldSpec) (v : List Char) :
    computeError f v = "" ∨ computeError f v = requiredMsg f.friendlyName ∨
    computeError f v = emailMsg ∨
    (∃ m, f.minLength = some m ∧ computeError f v = minLengthMsg f.friendlyName m) :=
  computeError_cases f v

/-- C10: a blur event validates and updates only the blurred field: every
other position of the form state — in particular its error text and errored
flag — is unchanged, while the blurred field is replaced by its validation
result. -/
theorem blur_frame_claim (i : Nat) (l : List (FieldSpec × FieldUI)) :
    (∀ j, j ≠ i → (blurHandler i l)[j]? = l[j]?) ∧
    (∀ b, l[i]? = some b → (blurHandler i l)[i]? = some (b.1, (validateField b.1 b.2).2)) := by
  induction l generalizing i with
  | nil => simp [blurHandler]
  | cons b t ih =>
    obtain ⟨f, ui⟩ := b
    cases i with
    | zero =>
      refine ⟨fun j hj => ?_, fun bb hbb => ?_⟩
      · cases j with
        | zero => exact absurd rfl hj
        | succ j => simp [blurHandler]
      · simp only [List.getElem?_cons_zero, Option.some_inj] at hbb
        subst hbb
        simp [blurHandler]
    | succ n =>
      refine ⟨fun j hj => ?_, fun bb hbb => ?_⟩
      · cases j with
        | zero => simp [blurHandler]
        | succ j =>
          simp only [blurHandler, List.getElem?_cons_succ]
          exact (ih n).1 j fun hc => hj (by rw [hc])
      · simp only [blurHandler, List.getElem?_cons_succ] at hbb ⊢
        exact (ih n).2 bb hbb

theorem blur_frame_claim_witness :
    (blurHandler 0 sampleForm)[1]? = sampleForm[1]? ∧
    (blurHandler 0 sampleForm)[0]? = some (nameField,
      (validateField nameField ⟨some ("John Doe".data), some "", some false⟩).2) :=
  ⟨(blur_frame_claim 0 sampleForm).1 1 (by decide),
   (blur_frame_claim 0 sampleForm).2
     (nameField, ⟨some ("John Doe".data), some "", some false⟩) rfl⟩
